import Mathlib

/-!
Shallow embedding of the `rmexif` image-scrubbing library.

The library operates on raw encoded image buffers entirely in memory:
`processors.py` provides `strip_metadata`, `detect_faces` and `blur_faces`;
`core.py` provides the `Scrubber` orchestrator (validate, then strip, then
blur) and a thread-pool bulk entry point; `utils.py` provides a
process-pool bulk entry point.

External library behaviour (PIL decode/verify/save, OpenCV imdecode,
cascade-classifier detection, Gaussian blur, JPEG encode) is abstracted into
an environment record `Env`; the control flow of every repository function is
translated statement by statement from the Python source.  Python exceptions
become an explicit `Except PyErr` result; the dynamically-typed argument of
the bulk workers becomes `PyVal` so that non-`bytes` elements can be
represented.
-/

/-- An encoded image buffer: an immutable byte sequence. -/
abbrev Buf := List Nat

/-- A dynamically typed Python value handed to the bulk workers: either a
`bytes` object or some other object (represented by a tag naming its type). -/
inductive PyVal where
  | bytes (b : Buf)
  | other (tag : String)
deriving DecidableEq

/-- The exception values the library's control flow distinguishes:
`TypeError` (raised by `Scrubber.__init__` on non-bytes input), `ValueError`
(raised by `Scrubber._validate`), and the library's own `ProcessingError`
(raised by `strip_metadata`, `detect_faces` and `blur_faces`). -/
inductive PyErr where
  | typeError (msg : String)
  | valueError (msg : String)
  | processingError (msg : String)
deriving DecidableEq

/-- The Python type of an exception value, as a name. -/
def PyErr.kind : PyErr → String
  | .typeError _ => "TypeError"
  | .valueError _ => "ValueError"
  | .processingError _ => "ProcessingError"

/-- A face bounding box `(x, y, w, h)` as returned by
`detectMultiScale`. -/
structure Region where
  x : Nat
  y : Nat
  w : Nat
  h : Nat
deriving DecidableEq

/-- The statistics dictionary produced by `Scrubber.process`.  The wall-clock
reading `processing_time_ms` is modelled from two clock samples passed in
explicitly (the real code reads `time.perf_counter` twice). -/
structure Stats where
  faces_detected : Nat
  metadata_removed : Bool
  processing_time_ms : Nat
deriving DecidableEq

/-- Behaviour of the external imaging libraries (PIL and OpenCV), over an
abstract decoded-image type `Img`:

* `pilVerifyOk b` — whether `Image.open(BytesIO(b)).verify()` succeeds;
* `stripResult b` — the bytes produced by PIL `open`/`save` without metadata,
  or the message of the exception that step raises;
* `imdecode b` — `cv2.imdecode`, `none` when decoding fails (Python `None`);
* `cascadeOk` — whether the Haar-cascade asset loads (`not face_cascade.empty()`);
* `detect img` — `detectMultiScale` on the grayscale image (fixed parameters
  scaleFactor 1.1, minNeighbors 5, minSize 30x30), or the message of an
  exception raised by the detection machinery;
* `gaussianBlur img r k` — the image after `cv2.GaussianBlur` with kernel
  `(k, k)` and sigma 30 is written back into region `r`;
* `imencodeJpg img` — the bytes of `cv2.imencode(".jpg", img)`;
* `decodes b` — whether buffer `b` decodes as some image format;
* `metadataFree b` — whether buffer `b` carries no ancillary metadata. -/
structure Env (Img : Type) where
  pilVerifyOk : Buf → Bool
  stripResult : Buf → Except String Buf
  imdecode : Buf → Option Img
  cascadeOk : Bool
  detect : Img → Except String (List Region)
  gaussianBlur : Img → Region → Nat → Img
  imencodeJpg : Img → Buf
  decodes : Buf → Bool
  metadataFree : Buf → Bool

/-- `processors.strip_metadata`: re-encode without metadata; any exception is
wrapped into `ProcessingError("Failed to strip metadata: ...")`. -/
def strip_metadata {Img : Type} (env : Env Img) (image_bytes : Buf) :
    Except PyErr Buf :=
  match env.stripResult image_bytes with
  | .ok out => .ok out
  | .error msg => .error (.processingError ("Failed to strip metadata: " ++ msg))

/-- `processors.detect_faces`: decode with OpenCV; on decode failure return
`(None, [])`; if the cascade asset fails to load raise
`ProcessingError("Could not load Haar Cascade XML file.")`; if the detection
machinery itself throws, wrap the exception into a `ProcessingError`. -/
def detect_faces {Img : Type} (env : Env Img) (image_bytes : Buf) :
    Except PyErr (Option Img × List Region) :=
  match env.imdecode image_bytes with
  | none => .ok (none, [])
  | some img =>
      if env.cascadeOk then
        match env.detect img with
        | .ok faces => .ok (some img, faces)
        | .error msg =>
            .error (.processingError ("Error during face detection: " ++ msg))
      else
        .error (.processingError "Could not load Haar Cascade XML file.")

/-- The blur kernel size computed per face in `blur_faces`:
`int(max(w, h) / 2) | 1`. -/
def ksize (w h : Nat) : Nat := (max w h / 2) ||| 1

/-- The `for (x, y, w, h) in faces` loop of `blur_faces`: each region of the
image is replaced by its Gaussian-blurred version, in list order. -/
def blurLoop {Img : Type} (env : Env Img) (faces : List Region) (img : Img) :
    Img :=
  faces.foldl (fun im r => env.gaussianBlur im r (ksize r.w r.h)) img

/-- `processors.blur_faces`: detect faces; if the decoded image is `None` or
no faces were found, return the input bytes unchanged with count 0;
otherwise blur every region and re-encode as JPEG. -/
def blur_faces {Img : Type} (env : Env Img) (image_bytes : Buf) :
    Except PyErr (Buf × Nat) :=
  match detect_faces env image_bytes with
  | .error e => .error e
  | .ok (imgOpt, faces) =>
      match imgOpt with
      | none => .ok (image_bytes, 0)
      | some img =>
          if faces.length = 0 then
            .ok (image_bytes, 0)
          else
            .ok (env.imencodeJpg (blurLoop env faces img), faces.length)

/-- The `Scrubber` object: it holds the validated raw bytes. -/
structure Scrubber where
  image_bytes : Buf
deriving DecidableEq

/-- `Scrubber._validate`: PIL verification; any failure is converted to a
`ValueError`. -/
def Scrubber._validate {Img : Type} (env : Env Img) (b : Buf) :
    Except PyErr Unit :=
  if env.pilVerifyOk b then
    .ok ()
  else
    .error (.valueError
      "Input error: The provided data is not a valid image or is corrupted.")

/-- `Scrubber.__init__`: a `TypeError` for non-bytes input, then validation. -/
def Scrubber.init {Img : Type} (env : Env Img) (v : PyVal) :
    Except PyErr Scrubber :=
  match v with
  | .bytes b =>
      match Scrubber._validate env b with
      | .ok _ => .ok ⟨b⟩
      | .error e => .error e
  | .other tag =>
      .error (.typeError ("Scrubber requires raw bytes, got " ++ tag))

/-- `Scrubber.process`: strip metadata, then blur faces; on success return the
final bytes together with the stats dictionary; any stage error is re-raised
unchanged.  `startT` and `finishT` are the two `perf_counter` samples. -/
def Scrubber.process {Img : Type} (env : Env Img) (s : Scrubber)
    (startT finishT : Nat) : Except PyErr (Buf × Stats) :=
  match strip_metadata env s.image_bytes with
  | .error e => .error e
  | .ok cleaned =>
      match blur_faces env cleaned with
      | .error e => .error e
      | .ok (finalBytes, faceCount) =>
          .ok (finalBytes,
            { faces_detected := faceCount
              metadata_removed := true
              processing_time_ms := finishT - startT })

/-- The composite `Scrubber(data).process()` appearing in both bulk workers. -/
def scrubRun {Img : Type} (env : Env Img) (v : PyVal) (startT finishT : Nat) :
    Except PyErr (Buf × Stats) :=
  match Scrubber.init env v with
  | .error e => .error e
  | .ok s => Scrubber.process env s startT finishT

/-- `Scrubber._process_single`: run the whole pipeline on one item, and on any
exception return the original item unchanged. -/
def Scrubber._process_single {Img : Type} (env : Env Img) (data : PyVal) :
    PyVal :=
  match scrubRun env data 0 0 with
  | .ok (cleaned, _) => .bytes cleaned
  | .error _ => data

/-- `Scrubber.bulk_process`: `ThreadPoolExecutor().map` of the per-item
worker; `executor.map` yields results in input order. -/
def Scrubber.bulk_process {Img : Type} (env : Env Img)
    (image_list : List PyVal) : List PyVal :=
  image_list.map (Scrubber._process_single env)

namespace Utils

/-- `utils._scrub_task`: identical per-item worker used by the process pool. -/
def _scrub_task {Img : Type} (env : Env Img) (image_data : PyVal) : PyVal :=
  match scrubRun env image_data 0 0 with
  | .ok (cleaned, _) => .bytes cleaned
  | .error _ => image_data

/-- `utils.bulk_process`: `ProcessPoolExecutor(max_workers).map` of
`_scrub_task`; `executor.map` yields results in input order.  The worker
count influences scheduling only, never the value returned. -/
def bulk_process {Img : Type} (env : Env Img) (image_list : List PyVal)
    (max_workers : Option Nat) : List PyVal :=
  match max_workers with
  | _ => image_list.map (_scrub_task env)

end Utils

/-!
Executor semantics.  An `Executor.map` call dispatches one task per input
item; tasks may complete in any order, but the results are delivered in the
order of the inputs.  We model a run by the completion order: a permutation
of the enumerated input list.  Each task computes independently, and the
result list is reassembled by looking up each original index.
-/

/-- Complete the tasks in the given completion order, tagging each result
with the original index of its input. -/
def runTasks {α β : Type} (f : α → β) (order : List (Nat × α)) :
    List (Nat × β) :=
  order.map (fun p => (p.1, f p.2))

/-- Reassemble the completed tasks by original index. -/
def reassemble {β : Type} (n : Nat) (completed : List (Nat × β))
    (fallback : β) : List β :=
  (List.range n).map (fun i => (completed.lookup i).getD fallback)

/-- The observable behaviour of `executor.map f xs` under a completion order. -/
def executorMapSem {α β : Type} (f : α → β) (xs : List α)
    (order : List (Nat × α)) (fallback : β) : List β :=
  reassemble xs.length (runTasks f order) fallback

/-- Looking up a key is invariant under permutation of an association list
whose keys are distinct. -/
theorem lookup_perm_eq {β : Type} {l₁ l₂ : List (Nat × β)} (h : l₁.Perm l₂)
    (nd : (l₁.map Prod.fst).Nodup) (i : Nat) : l₁.lookup i = l₂.lookup i := by
  induction h with
  | nil => rfl
  | cons p h ih =>
      simp only [List.map_cons, List.nodup_cons] at nd
      obtain ⟨p₁, p₂⟩ := p
      simp only [List.lookup_cons]
      cases hb : (i == p₁) with
      | true => rfl
      | false => exact ih nd.2
  | swap p q l =>
      obtain ⟨p₁, p₂⟩ := p
      obtain ⟨q₁, q₂⟩ := q
      simp only [List.map_cons, List.nodup_cons, List.mem_cons] at nd
      have hpq : q₁ ≠ p₁ := fun e => nd.1 (Or.inl e)
      by_cases h1 : i = q₁
      · subst h1
        have hf : (i == p₁) = false := by simp [hpq]
        simp [List.lookup_cons, hf]
      · have hf1 : (i == q₁) = false := by simp [h1]
        by_cases h2 : i = p₁
        · subst h2
          simp [List.lookup_cons, hf1]
        · have hf2 : (i == p₁) = false := by simp [h2]
          simp [List.lookup_cons, hf1, hf2]
  | trans h₁ h₂ ih₁ ih₂ =>
      have nd₂ : (List.map Prod.fst _).Nodup := ((h₁.map Prod.fst).nodup_iff).mp nd
      exact (ih₁ nd).trans (ih₂ nd₂)

/-- Looking up index `k + i` in an enumeration starting at `k` retrieves the
element at position `i`. -/
theorem enumFrom_lookup {β : Type} (ys : List β) :
    ∀ (k i : Nat), (List.enumFrom k ys).lookup (k + i) = ys[i]? := by
  induction ys with
  | nil => intro k i; rfl
  | cons y t ih =>
      intro k i
      cases i with
      | zero =>
          simp [List.enumFrom, List.lookup_cons]
      | succ j =>
          have hne : ((k + (j + 1)) == k) = false := by
            have : k + (j + 1) ≠ k := by omega
            simp [this]
          have hstep : k + (j + 1) = (k + 1) + j := by omega
          simp only [List.enumFrom, List.lookup_cons, hne]
          rw [hstep, ih (k + 1) j]
          simp

/-- Completing the tasks of an enumeration in dispatch order is the
enumeration of the mapped list. -/
theorem runTasks_enumFrom {α β : Type} (f : α → β) (ys : List α) :
    ∀ k, runTasks f (List.enumFrom k ys) = List.enumFrom k (ys.map f) := by
  induction ys with
  | nil => intro k; rfl
  | cons y t ih =>
      intro k
      have h := ih (k + 1)
      simp only [runTasks, List.enumFrom, List.map_cons] at h ⊢
      simp [h]

/-- Completing tasks preserves the index tags. -/
theorem runTasks_map_fst {α β : Type} (f : α → β) (l : List (Nat × α)) :
    (runTasks f l).map Prod.fst = l.map Prod.fst := by
  induction l with
  | nil => rfl
  | cons p t ih => simp [runTasks]

/-- Under any completion order that is a permutation of the dispatched tasks,
the reassembled result of `executor.map f` is exactly `xs.map f`. -/
theorem executorMapSem_eq_map {α β : Type} (f : α → β) (xs : List α)
    (order : List (Nat × α)) (fb : β) (h : order.Perm xs.enum) :
    executorMapSem f xs order fb = xs.map f := by
  have hnd : ((runTasks f order).map Prod.fst).Nodup := by
    rw [runTasks_map_fst]
    have hperm : (order.map Prod.fst).Perm (xs.enum.map Prod.fst) :=
      h.map Prod.fst
    rw [List.enum_map_fst] at hperm
    exact (hperm.nodup_iff).mpr (List.nodup_range xs.length)
  have hperm2 : (runTasks f order).Perm (runTasks f xs.enum) := by
    simpa [runTasks] using h.map (fun p => (p.1, f p.2))
  have hlen : (executorMapSem f xs order fb).length = (xs.map f).length := by
    simp [executorMapSem, reassemble]
  apply List.ext_getElem hlen
  intro n h₁ h₂
  have hn : n < xs.length := by simpa using h₂
  have hlook : (runTasks f order).lookup n = (runTasks f xs.enum).lookup n :=
    lookup_perm_eq hperm2 hnd n
  have henum : (runTasks f xs.enum).lookup n = (xs.map f)[n]? := by
    have := enumFrom_lookup (xs.map f) 0 n
    simpa [List.enum, runTasks_enumFrom] using this
  have hsome : (xs.map f)[n]? = some ((xs.map f)[n]) :=
    List.getElem?_eq_getElem h₂
  simp only [executorMapSem, reassemble, List.getElem_map, List.getElem_range]
  rw [hlook, henum, hsome]
  simp

/-!
Concrete environments used to evaluate the development on closed inputs.
The decoded-image type is `Unit`; the behaviour of each external call is
chosen per scenario.
-/

/-- A healthy environment: every buffer that is nonempty verifies, stripping
prepends a marker byte, decoding succeeds, the cascade loads, and no faces
are found. -/
def envOk : Env Unit where
  pilVerifyOk := fun b => !b.isEmpty
  stripResult := fun b => .ok (0 :: b)
  imdecode := fun _ => some ()
  cascadeOk := true
  detect := fun _ => .ok []
  gaussianBlur := fun im _ _ => im
  imencodeJpg := fun _ => [9, 9]
  decodes := fun _ => true
  metadataFree := fun _ => true

/-- Like `envOk` but one face is reported, exercising the blur-and-re-encode
path. -/
def envFaces : Env Unit where
  pilVerifyOk := fun b => !b.isEmpty
  stripResult := fun b => .ok (0 :: b)
  imdecode := fun _ => some ()
  cascadeOk := true
  detect := fun _ => .ok [⟨5, 6, 41, 60⟩]
  gaussianBlur := fun im _ _ => im
  imencodeJpg := fun _ => [9, 9]
  decodes := fun _ => true
  metadataFree := fun _ => true

/-- Like `envOk` but the PIL save step raises exactly on the buffer `[1]`,
so that one batch item fails while the others succeed. -/
def envSel : Env Unit where
  pilVerifyOk := fun b => !b.isEmpty
  stripResult := fun b => if b = [1] then .error "boom" else .ok (0 :: b)
  imdecode := fun _ => some ()
  cascadeOk := true
  detect := fun _ => .ok []
  gaussianBlur := fun im _ _ => im
  imencodeJpg := fun _ => [9, 9]
  decodes := fun _ => true
  metadataFree := fun _ => true

/-- Like `envOk` but OpenCV fails to decode every buffer. -/
def envNoDecode : Env Unit where
  pilVerifyOk := fun b => !b.isEmpty
  stripResult := fun b => .ok (0 :: b)
  imdecode := fun _ => none
  cascadeOk := true
  detect := fun _ => .ok []
  gaussianBlur := fun im _ _ => im
  imencodeJpg := fun _ => [9, 9]
  decodes := fun _ => true
  metadataFree := fun _ => true

/-- Like `envOk` but the Haar-cascade asset cannot be loaded. -/
def envNoCascade : Env Unit where
  pilVerifyOk := fun b => !b.isEmpty
  stripResult := fun b => .ok (0 :: b)
  imdecode := fun _ => some ()
  cascadeOk := false
  detect := fun _ => .ok []
  gaussianBlur := fun im _ _ => im
  imencodeJpg := fun _ => [9, 9]
  decodes := fun _ => true
  metadataFree := fun _ => true

/-!
Helper lemmas about the single-image pipeline.
-/


/-- `strip_metadata` succeeds exactly when the underlying PIL round trip
succeeds, with the same bytes. -/
theorem strip_metadata_ok_iff {Img : Type} (env : Env Img) (b out : Buf) :
    strip_metadata env b = .ok out ↔ env.stripResult b = .ok out := by
  simp only [strip_metadata]
  cases hs : env.stripResult b <;> simp

/-- `Scrubber.process` only uses its clock samples for the
`processing_time_ms` field: the output bytes, the face count and
`metadata_removed` do not depend on them. -/
theorem process_time_invariant {Img : Type} (env : Env Img) (s : Scrubber)
    (t0 t1 t0' t1' : Nat) :
    Scrubber.process env s t0' t1' =
      (Scrubber.process env s t0 t1).map
        (fun p => (p.1, { p.2 with processing_time_ms := t1' - t0' })) := by
  cases hs : strip_metadata env s.image_bytes with
  | error e => simp [Scrubber.process, hs, Except.map]
  | ok cleaned =>
      cases hb : blur_faces env cleaned with
      | error e => simp [Scrubber.process, hs, hb, Except.map]
      | ok p =>
          obtain ⟨fb, fc⟩ := p
          simp [Scrubber.process, hs, hb, Except.map]

/-- Same statement lifted to the `Scrubber(data).process()` composite. -/
theorem scrubRun_time_invariant {Img : Type} (env : Env Img) (v : PyVal)
    (t0 t1 t0' t1' : Nat) :
    scrubRun env v t0' t1' =
      (scrubRun env v t0 t1).map
        (fun p => (p.1, { p.2 with processing_time_ms := t1' - t0' })) := by
  cases hi : Scrubber.init env v with
  | error e => simp [scrubRun, hi, Except.map]
  | ok s =>
      simp only [scrubRun, hi]
      exact process_time_invariant env s t0 t1 t0' t1'

/-- Shape of a successful `blur_faces` run: either the fast path returned
the input bytes with count 0, or a nonempty face list was blurred and the
image re-encoded as JPEG. -/
theorem blur_faces_ok_shape {Img : Type} (env : Env Img) (b out : Buf)
    (n : Nat) (h : blur_faces env b = .ok (out, n)) :
    (out = b ∧ n = 0) ∨
      ∃ img faces, env.imdecode b = some img ∧ env.detect img = .ok faces ∧
        faces.length ≠ 0 ∧ out = env.imencodeJpg (blurLoop env faces img) ∧
        n = faces.length := by
  cases hd : env.imdecode b with
  | none =>
      simp [blur_faces, detect_faces, hd] at h
      exact Or.inl ⟨h.1.symm, h.2.symm⟩
  | some img =>
      cases hc : env.cascadeOk with
      | false => simp [blur_faces, detect_faces, hd, hc] at h
      | true =>
          cases hdet : env.detect img with
          | error msg => simp [blur_faces, detect_faces, hd, hc, hdet] at h
          | ok faces =>
              by_cases hf : faces.length = 0
              · simp [blur_faces, detect_faces, hd, hc, hdet, hf] at h
                exact Or.inl ⟨h.1.symm, h.2.symm⟩
              · simp [blur_faces, detect_faces, hd, hc, hdet, hf] at h
                exact Or.inr ⟨img, faces, rfl, hdet, hf, h.1.symm, h.2.symm⟩

/-- Shape of a successful `Scrubber.process` run: stripping succeeded, the
stats fields are as packed by `process`, and the output is either the
stripped bytes (fast path) or the JPEG re-encoding of the blurred image. -/
theorem process_ok_shape {Img : Type} (env : Env Img) (s : Scrubber)
    (t0 t1 : Nat) (out : Buf) (st : Stats)
    (h : Scrubber.process env s t0 t1 = .ok (out, st)) :
    ∃ cleaned, env.stripResult s.image_bytes = .ok cleaned ∧
      st.metadata_removed = true ∧ st.processing_time_ms = t1 - t0 ∧
      ((out = cleaned ∧ st.faces_detected = 0) ∨
        ∃ img faces, env.imdecode cleaned = some img ∧
          env.detect img = .ok faces ∧ faces.length ≠ 0 ∧
          out = env.imencodeJpg (blurLoop env faces img) ∧
          st.faces_detected = faces.length) := by
  cases hs : strip_metadata env s.image_bytes with
  | error e => simp [Scrubber.process, hs] at h
  | ok cleaned =>
      cases hb : blur_faces env cleaned with
      | error e => simp [Scrubber.process, hs, hb] at h
      | ok p =>
          obtain ⟨fb, fc⟩ := p
          simp [Scrubber.process, hs, hb] at h
          obtain ⟨hout, hst⟩ := h
          refine ⟨cleaned, (strip_metadata_ok_iff env _ _).mp hs, ?_, ?_, ?_⟩
          · rw [← hst]
          · rw [← hst]
          · rcases blur_faces_ok_shape env cleaned fb fc hb with hfast | hblur
            · exact Or.inl ⟨by rw [← hout, hfast.1], by rw [← hst]; exact hfast.2⟩
            · obtain ⟨img, faces, h1, h2, h3, h4, h5⟩ := hblur
              exact Or.inr ⟨img, faces, h1, h2, h3, by rw [← hout, h4],
                by rw [← hst]; exact h5⟩

/-!
Claim theorems.
-/

/-- C4: for every detected face region with integer width `w > 0` and height
`h > 0`, the blur kernel size computed by `blur_faces` equals
`floor(max(w, h) / 2)` bitwise-OR `1`, which is always odd and strictly
positive; in particular for `w = 41` and `h = 60` the kernel size is 31. -/
theorem blur_kernel_size_odd_pos (w h : Nat) (hw : 0 < w) (hh : 0 < h) :
    ksize w h = (max w h / 2) ||| 1 ∧ ksize w h % 2 = 1 ∧ 0 < ksize w h ∧
      ksize 41 60 = 31 := by
  have hodd : ksize w h % 2 = 1 := by
    have hbit : (ksize w h).testBit 0 = true := by
      simp [ksize, Nat.testBit_or]
    simpa [Nat.testBit_zero] using hbit
  exact ⟨rfl, hodd, by omega, by decide⟩

theorem blur_kernel_size_odd_pos_witness :
    0 < 41 ∧ 0 < 60 ∧
      (ksize 41 60 = (max 41 60 / 2) ||| 1 ∧ ksize 41 60 % 2 = 1 ∧
        0 < ksize 41 60 ∧ ksize 41 60 = 31) :=
  ⟨by decide, by decide,
    blur_kernel_size_odd_pos 41 60 (by decide) (by decide)⟩

/-- C3: for every buffer, if face detection returns a null decoded image or
an empty region list, `blur_faces` returns exactly the original input buffer
(no re-encoding) together with face count 0. -/
theorem blur_faces_fastpath_returns_original {Img : Type} (env : Env Img)
    (b : Buf) (imgOpt : Option Img) (faces : List Region)
    (hdet : detect_faces env b = .ok (imgOpt, faces))
    (hzero : imgOpt = none ∨ faces = []) :
    blur_faces env b = .ok (b, 0) := by
  rcases hzero with hnone | hempty
  · subst hnone
    simp [blur_faces, hdet]
  · subst hempty
    cases imgOpt with
    | none => simp [blur_faces, hdet]
    | some img => simp [blur_faces, hdet]

theorem blur_faces_fastpath_returns_original_witness :
    blur_faces envOk [1] = .ok ([1], 0) :=
  blur_faces_fastpath_returns_original envOk [1] (some ()) [] rfl (Or.inr rfl)

/-- C5: for every input list of buffers, the thread-parallel strategy
(`Scrubber.bulk_process`) and the process-parallel strategy
(`utils.bulk_process`) produce identical ordered output lists, for every
worker count. -/
theorem thread_and_process_bulk_agree {Img : Type} (env : Env Img)
    (image_list : List PyVal) (max_workers : Option Nat) :
    Scrubber.bulk_process env image_list =
      Utils.bulk_process env image_list max_workers := by
  cases max_workers <;> rfl

/-- C10: a non-bytes element makes the `Scrubber` constructor raise
`TypeError` before validation, yet the per-item worker of either bulk entry
point catches it at the item boundary and the element reappears verbatim at
its index in the returned list. -/
theorem bulk_worker_swallows_nonbytes {Img : Type} (env : Env Img)
    (tag : String) (xs : List PyVal) (j : Nat)
    (hj : xs[j]? = some (.other tag)) :
    Scrubber.init env (.other tag) =
        .error (.typeError ("Scrubber requires raw bytes, got " ++ tag))
  ∧ Scrubber._process_single env (.other tag) = .other tag
  ∧ Utils._scrub_task env (.other tag) = .other tag
  ∧ (Scrubber.bulk_process env xs)[j]? = some (.other tag)
  ∧ (Utils.bulk_process env xs none)[j]? = some (.other tag) := by
  refine ⟨rfl, rfl, rfl, ?_, ?_⟩
  · show (xs.map (Scrubber._process_single env))[j]? = some (.other tag)
    rw [List.getElem?_map, hj]
    rfl
  · show (xs.map (Utils._scrub_task env))[j]? = some (.other tag)
    rw [List.getElem?_map, hj]
    rfl

theorem bulk_worker_swallows_nonbytes_witness :
    Scrubber.init envOk (PyVal.other "list") =
        .error (.typeError ("Scrubber requires raw bytes, got " ++ "list"))
  ∧ Scrubber._process_single envOk (PyVal.other "list") = PyVal.other "list"
  ∧ Utils._scrub_task envOk (PyVal.other "list") = PyVal.other "list"
  ∧ (Scrubber.bulk_process envOk
      [PyVal.bytes [1], PyVal.other "list"])[1]? = some (PyVal.other "list")
  ∧ (Utils.bulk_process envOk
      [PyVal.bytes [1], PyVal.other "list"] none)[1]? =
        some (PyVal.other "list") :=
  bulk_worker_swallows_nonbytes envOk "list"
    [PyVal.bytes [1], PyVal.other "list"] 1 rfl

/-- C6: for every buffer that fails to decode, `detect_faces` returns
`(null, [])` rather than raising; a detection error arises only when the
detection machinery itself fails (cascade asset unavailable or the detector
throwing), never because zero faces were found. -/
theorem detect_faces_decode_failure_nonfatal {Img : Type} (env : Env Img)
    (b : Buf) :
    (env.imdecode b = none → detect_faces env b = .ok (none, []))
  ∧ (∀ e, detect_faces env b = .error e →
      ∃ img, env.imdecode b = some img ∧
        (env.cascadeOk = false ∨ ∃ msg, env.detect img = .error msg))
  ∧ (∀ img faces, env.imdecode b = some img → env.cascadeOk = true →
      env.detect img = .ok faces →
      detect_faces env b = .ok (some img, faces)) := by
  refine ⟨?_, ?_, ?_⟩
  · intro hd
    simp [detect_faces, hd]
  · intro e he
    cases hd : env.imdecode b with
    | none => simp [detect_faces, hd] at he
    | some img =>
        refine ⟨img, rfl, ?_⟩
        cases hc : env.cascadeOk with
        | false => exact Or.inl rfl
        | true =>
            cases hdet : env.detect img with
            | error msg => exact Or.inr ⟨msg, rfl⟩
            | ok faces => simp [detect_faces, hd, hc, hdet] at he
  · intro img faces hd hc hdet
    simp [detect_faces, hd, hc, hdet]

theorem detect_faces_decode_failure_nonfatal_witness :
    detect_faces envNoDecode [1] = .ok (none, []) ∧
      detect_faces envOk [1] = .ok (some (), []) :=
  ⟨(detect_faces_decode_failure_nonfatal envNoDecode [1]).1 rfl,
    (detect_faces_decode_failure_nonfatal envOk [1]).2.2 () [] rfl rfl rfl⟩

/-- C1: for every input list, bulk processing (thread-based
`Scrubber.bulk_process` and process-based `utils.bulk_process`) returns a
list of the same length whose element at each index is the processed input
at that same index, regardless of the completion order of the dispatched
tasks, for every batch size including 0 and 1. -/
theorem bulk_process_preserves_length_and_order {Img : Type} (env : Env Img)
    (xs : List PyVal) (order : List (Nat × PyVal)) (fb : PyVal)
    (horder : order.Perm xs.enum) :
    executorMapSem (Scrubber._process_single env) xs order fb =
        Scrubber.bulk_process env xs
  ∧ executorMapSem (Utils._scrub_task env) xs order fb =
        Utils.bulk_process env xs none
  ∧ (Scrubber.bulk_process env xs).length = xs.length
  ∧ (Utils.bulk_process env xs none).length = xs.length
  ∧ (∀ i (hi : i < xs.length),
      (Scrubber.bulk_process env xs)[i]? =
        some (Scrubber._process_single env xs[i]))
  ∧ (∀ i (hi : i < xs.length),
      (Utils.bulk_process env xs none)[i]? =
        some (Utils._scrub_task env xs[i])) := by
  refine ⟨?_, ?_, ?_, ?_, ?_, ?_⟩
  · exact executorMapSem_eq_map _ xs order fb horder
  · exact executorMapSem_eq_map _ xs order fb horder
  · simp [Scrubber.bulk_process]
  · simp [Utils.bulk_process]
  · intro i hi
    show (xs.map (Scrubber._process_single env))[i]? = _
    rw [List.getElem?_map, List.getElem?_eq_getElem hi]
    rfl
  · intro i hi
    show (xs.map (Utils._scrub_task env))[i]? = _
    rw [List.getElem?_map, List.getElem?_eq_getElem hi]
    rfl

theorem bulk_process_preserves_length_and_order_witness :
    executorMapSem (Scrubber._process_single envOk)
        [PyVal.other "a", PyVal.other "b"]
        [(1, PyVal.other "b"), (0, PyVal.other "a")] (PyVal.other "a") =
      Scrubber.bulk_process envOk [PyVal.other "a", PyVal.other "b"]
  ∧ (Scrubber.bulk_process envOk [PyVal.other "a", PyVal.other "b"]).length =
      2 := by
  have h := bulk_process_preserves_length_and_order envOk
    [PyVal.other "a", PyVal.other "b"]
    [(1, PyVal.other "b"), (0, PyVal.other "a")] (PyVal.other "a")
    (by decide)
  exact ⟨h.1, h.2.2.1⟩

/-- C2: if the item at index `j` fails with any stage error, the bulk result
at index `j` is the original input at that index, the failure does not
influence the result at any other index, and the batch as a whole still
returns a full-length list. -/
theorem bulk_item_failure_falls_back {Img : Type} (env : Env Img)
    (xs : List PyVal) (j : Nat) (v : PyVal) (e : PyErr)
    (hj : xs[j]? = some v) (hfail : scrubRun env v 0 0 = .error e) :
    (Scrubber.bulk_process env xs)[j]? = some v
  ∧ (Utils.bulk_process env xs none)[j]? = some v
  ∧ (∀ w i, i ≠ j →
      (Scrubber.bulk_process env (xs.set j w))[i]? =
        (Scrubber.bulk_process env xs)[i]?)
  ∧ (Scrubber.bulk_process env xs).length = xs.length
  ∧ (Utils.bulk_process env xs none).length = xs.length := by
  have hps : Scrubber._process_single env v = v := by
    simp [Scrubber._process_single, hfail]
  have hst : Utils._scrub_task env v = v := by
    simp [Utils._scrub_task, hfail]
  refine ⟨?_, ?_, ?_, ?_, ?_⟩
  · show (xs.map (Scrubber._process_single env))[j]? = some v
    rw [List.getElem?_map, hj]
    simp [hps]
  · show (xs.map (Utils._scrub_task env))[j]? = some v
    rw [List.getElem?_map, hj]
    simp [hst]
  · intro w i hne
    show ((xs.set j w).map (Scrubber._process_single env))[i]? =
      (xs.map (Scrubber._process_single env))[i]?
    rw [List.getElem?_map, List.getElem?_map,
      List.getElem?_set_ne (fun hji => hne hji.symm)]
  · simp [Scrubber.bulk_process]
  · simp [Utils.bulk_process]

theorem bulk_item_failure_falls_back_witness :
    (Scrubber.bulk_process envSel [PyVal.bytes [1], PyVal.bytes [2]])[0]? =
        some (PyVal.bytes [1])
  ∧ (Utils.bulk_process envSel [PyVal.bytes [1], PyVal.bytes [2]] none)[0]? =
        some (PyVal.bytes [1])
  ∧ (Scrubber.bulk_process envSel [PyVal.bytes [1], PyVal.bytes [2]])[1]? =
        some (PyVal.bytes [0, 2]) := by
  have h := bulk_item_failure_falls_back envSel
    [PyVal.bytes [1], PyVal.bytes [2]] 0 (PyVal.bytes [1])
    (PyErr.processingError ("Failed to strip metadata: " ++ "boom")) rfl rfl
  exact ⟨h.1, h.2.1, rfl⟩

/-- C7 counterexample: the claim asserts three distinct dedicated error
types, one per stage; in the code the metadata-stripping stage and the
face-detection stage both raise the single `ProcessingError` type, and the
validation stage raises the built-in `ValueError`, not a dedicated
`InvalidImageError`.  Concretely, a failing strip and a failing detection
produce errors of the same type. -/
theorem strip_and_detection_share_error_type_cex :
    strip_metadata envSel [1] =
        .error (.processingError ("Failed to strip metadata: " ++ "boom"))
  ∧ detect_faces envNoCascade [1] =
        .error (.processingError "Could not load Haar Cascade XML file.")
  ∧ PyErr.kind
        (.processingError ("Failed to strip metadata: " ++ "boom")) =
      PyErr.kind (.processingError "Could not load Haar Cascade XML file.")
  ∧ Scrubber._validate envOk [] =
      .error (.valueError
        "Input error: The provided data is not a valid image or is corrupted.") :=
  ⟨rfl, rfl, rfl, rfl⟩

/-- C7 amended: validation raises `ValueError`; metadata stripping and face
detection both raise the library's single dedicated `ProcessingError` type
(two distinct error types, not three); within the single-image pipeline a
failing stage's error surfaces unchanged to the immediate caller and no
output is returned. -/
theorem stage_error_types_and_propagation {Img : Type} (env : Env Img)
    (s : Scrubber) (t0 t1 : Nat) :
    (∀ e, Scrubber._validate env s.image_bytes = .error e →
      e.kind = "ValueError")
  ∧ (∀ e, strip_metadata env s.image_bytes = .error e →
      e.kind = "ProcessingError")
  ∧ (∀ e, detect_faces env s.image_bytes = .error e →
      e.kind = "ProcessingError")
  ∧ (∀ e, strip_metadata env s.image_bytes = .error e →
      Scrubber.process env s t0 t1 = .error e)
  ∧ (∀ cleaned e, strip_metadata env s.image_bytes = .ok cleaned →
      blur_faces env cleaned = .error e →
      Scrubber.process env s t0 t1 = .error e) := by
  refine ⟨?_, ?_, ?_, ?_, ?_⟩
  · intro e he
    by_cases hv : env.pilVerifyOk s.image_bytes
    · simp [Scrubber._validate, hv] at he
    · simp [Scrubber._validate, hv] at he
      subst he
      rfl
  · intro e he
    cases hs : env.stripResult s.image_bytes with
    | ok o => simp [strip_metadata, hs] at he
    | error m =>
        simp [strip_metadata, hs] at he
        subst he
        rfl
  · intro e he
    cases hd : env.imdecode s.image_bytes with
    | none => simp [detect_faces, hd] at he
    | some img =>
        cases hc : env.cascadeOk with
        | false =>
            simp [detect_faces, hd, hc] at he
            subst he
            rfl
        | true =>
            cases hdet : env.detect img with
            | error m =>
                simp [detect_faces, hd, hc, hdet] at he
                subst he
                rfl
            | ok faces => simp [detect_faces, hd, hc, hdet] at he
  · intro e he
    simp [Scrubber.process, he]
  · intro cleaned e hok hbe
    simp [Scrubber.process, hok, hbe]

theorem stage_error_types_and_propagation_witness :
    PyErr.kind
        (PyErr.processingError ("Failed to strip metadata: " ++ "boom")) =
      "ProcessingError"
  ∧ Scrubber.process envSel ⟨[1]⟩ 0 0 =
      .error (.processingError ("Failed to strip metadata: " ++ "boom")) := by
  have h := stage_error_types_and_propagation envSel ⟨[1]⟩ 0 0
  exact ⟨h.2.1 _ rfl, h.2.2.2.1 _ rfl⟩

/-- The pipeline composite succeeds on a bytes input only after validation
passed, and then its result is that of `Scrubber.process`. -/
theorem scrubRun_bytes_ok {Img : Type} (env : Env Img) (b out : Buf)
    (st : Stats) (t0 t1 : Nat)
    (h : scrubRun env (.bytes b) t0 t1 = .ok (out, st)) :
    env.pilVerifyOk b = true ∧
      Scrubber.process env ⟨b⟩ t0 t1 = .ok (out, st) := by
  cases hv : env.pilVerifyOk b with
  | false => simp [scrubRun, Scrubber.init, Scrubber._validate, hv] at h
  | true =>
      refine ⟨rfl, ?_⟩
      simpa [scrubRun, Scrubber.init, Scrubber._validate, hv] using h

/-- C8: for every input buffer that is a valid raster image, the output
buffer returned by `process()` itself decodes successfully as some image
format (given that the PIL save step and the OpenCV JPEG encoder only emit
decodable buffers). -/
theorem process_output_decodable {Img : Type} (env : Env Img) (b out : Buf)
    (st : Stats) (t0 t1 : Nat)
    (hvalid : env.pilVerifyOk b = true)
    (hstrip : ∀ bb o, env.stripResult bb = .ok o → env.decodes o = true)
    (henc : ∀ img, env.decodes (env.imencodeJpg img) = true)
    (hrun : scrubRun env (.bytes b) t0 t1 = .ok (out, st)) :
    env.decodes out = true := by
  have hproc := (scrubRun_bytes_ok env b out st t0 t1 hrun).2
  obtain ⟨cleaned, hs, _, _, hcase⟩ :=
    process_ok_shape env ⟨b⟩ t0 t1 out st hproc
  rcases hcase with ⟨ho, _⟩ | ⟨img, faces, _, _, _, ho, _⟩
  · rw [ho]
    exact hstrip b cleaned hs
  · rw [ho]
    exact henc _

theorem process_output_decodable_witness : envOk.decodes [0, 1] = true :=
  process_output_decodable envOk [1] [0, 1] ⟨0, true, 0⟩ 0 0 rfl
    (fun _ _ _ => rfl) (fun _ => rfl) rfl

/-- C9: two separate runs of `process()` on the same bytes under the same
fixed environment produce the same output buffer, the same
`faces_detected` count and the same `metadata_removed` flag — only
`processing_time_ms` can differ — and the output buffer is metadata-free
(given that the PIL save step and the JPEG encoder only emit metadata-free
buffers). -/
theorem process_repeatable_modulo_timing {Img : Type} (env : Env Img)
    (b : Buf)
    (hmf : ∀ bb o, env.stripResult bb = .ok o → env.metadataFree o = true)
    (henc : ∀ img, env.metadataFree (env.imencodeJpg img) = true)
    (t0 t1 t0' t1' : Nat) (out out' : Buf) (st st' : Stats)
    (h1 : scrubRun env (.bytes b) t0 t1 = .ok (out, st))
    (h2 : scrubRun env (.bytes b) t0' t1' = .ok (out', st')) :
    out = out' ∧ st.faces_detected = st'.faces_detected ∧
      st.metadata_removed = st'.metadata_removed ∧
      env.metadataFree out = true := by
  have hinv := scrubRun_time_invariant env (.bytes b) t0 t1 t0' t1'
  rw [h1, h2] at hinv
  simp [Except.map] at hinv
  obtain ⟨hout, hst⟩ := hinv
  have hproc := (scrubRun_bytes_ok env b out st t0 t1 h1).2
  obtain ⟨cleaned, hs, _, _, hcase⟩ :=
    process_ok_shape env ⟨b⟩ t0 t1 out st hproc
  have hfree : env.metadataFree out = true := by
    rcases hcase with ⟨ho, _⟩ | ⟨img, faces, _, _, _, ho, _⟩
    · rw [ho]
      exact hmf b cleaned hs
    · rw [ho]
      exact henc _
  refine ⟨hout.symm, ?_, ?_, hfree⟩
  · rw [hst]
  · rw [hst]

theorem process_repeatable_modulo_timing_witness :
    envOk.metadataFree [0, 1] = true :=
  (process_repeatable_modulo_timing envOk [1] (fun _ _ _ => rfl)
    (fun _ => rfl) 0 5 0 9 [0, 1] [0, 1] ⟨0, true, 5⟩ ⟨0, true, 9⟩
    rfl rfl).2.2.2
